import Mathlib

/-!
Shallow embedding of the Mini-Bot reward bot (src/main.py and src/Configure.py).

The SQLite tables `users`, `tasks`, `task_submissions` and `referrals` are
modelled as a `Db` state; each HTTP/bot handler's database effect is a pure
Lean function over `Db`.  Timestamps are modelled as seconds-since-epoch
(`Nat`); `utcnow().date().isoformat()` values are opaque `String`s.  Paths
that end with `con.close()` without `con.commit()` roll back, so those paths
return the input `Db` unchanged, exactly as the sqlite3 driver does.
External collaborators (Telegram membership check, Pillow image validation,
hashlib/hmac digests) are passed in as parameters.
-/

namespace MiniBot

/-- Configure.py REWARDS defaults: R_DAILY = 50. -/
def REWARDS_daily : Int := 50

/-- Configure.py REWARDS defaults: R_REFERRAL = 200. -/
def REWARDS_referral : Int := 200

/-- Configure.py REWARDS defaults: R_AD_WATCH = 100. -/
def REWARDS_ad_watch : Int := 100

/-- Configure.py line 25: `BOOST_DURATION = int(os.getenv("BOOST_DURATION", 60 * 60))`,
one hour in seconds. -/
def BOOST_DURATION : Nat := 60 * 60

/-- A row of the `users` table (main.py migrate, lines 62-73).  The
`user_id` primary key is the `Db.users` map key.  `joined_at` is not
modelled (never read by any handler). -/
structure UserRow where
  username : String
  coins : Int
  referrer_id : Option Nat := none
  ads_watched : Int := 0
  ad_counter : Int := 0
  boost_until : Option Nat := none
  last_daily : Option String := none
deriving Repr, DecidableEq

/-- A row of the `tasks` table (main.py migrate, lines 74-81); the
AUTOINCREMENT `task_id` key is the `Db.tasks` map key. -/
structure TaskRow where
  title : String
  description : String
  link : String
  reward : Int
deriving Repr, DecidableEq

/-- A row of the `task_submissions` table (main.py migrate, lines 82-92);
the AUTOINCREMENT `submission_id` key is the `Db.subs` map key.  Note the
schema has no `reviewed_at` column. -/
structure SubRow where
  user_id : Nat
  task_id : Nat
  file_path : String
  status : String
  submitted_at : Nat
  reviewed_by : Option Nat := none
  review_reason : Option String := none
deriving Repr, DecidableEq

/-- The durable store: `users`, `tasks`, `task_submissions` and `referrals`
tables plus the AUTOINCREMENT counters. -/
structure Db where
  users : Nat → Option UserRow
  tasks : Nat → Option TaskRow
  subs : Nat → Option SubRow
  referrals : List (Nat × Nat)
  nextTaskId : Nat
  nextSubId : Nat

/-- The empty database right after `migrate()`. -/
def db0 : Db where
  users := fun _ => none
  tasks := fun _ => none
  subs := fun _ => none
  referrals := []
  nextTaskId := 1
  nextSubId := 1

/-- A fresh `users` row as inserted by the handlers' `INSERT OR IGNORE`
statements: explicit username and coins, all other columns at their schema
defaults (0 for the counters, NULL otherwise). -/
def freshUser (uname : String) (coins : Int) : UserRow :=
  { username := uname, coins := coins }

/-- Write (or overwrite) the `users` row keyed by `uid`. -/
def upsertUser (db : Db) (uid : Nat) (row : UserRow) : Db :=
  { db with users := fun u => if u = uid then some row else db.users u }

/-- `INSERT OR IGNORE INTO users ...`: keep the existing row, else insert a
fresh one. -/
def ensureUser (db : Db) (uid : Nat) (uname : String) (coins : Int) : Db :=
  if (db.users uid).isSome then db else upsertUser db uid (freshUser uname coins)

/-- The row the handler operates on after its `INSERT OR IGNORE`: the
existing row if present, else the fresh default row. -/
def getUserD (db : Db) (uid : Nat) (uname : String) (coins : Int) : UserRow :=
  (db.users uid).getD (freshUser uname coins)

/-- `UPDATE users SET coins = COALESCE(coins,0) + amt WHERE user_id = r`:
a no-op when the row is absent. -/
def updateCoins (db : Db) (r : Nat) (amt : Int) : Db :=
  match db.users r with
  | some row => upsertUser db r { row with coins := row.coins + amt }
  | none => db

/-- The balance an absent or present user shows (`COALESCE(coins,0)` view,
as rendered by `/balance/{user_id}`). -/
def balanceOf (db : Db) (uid : Nat) : Int :=
  match db.users uid with
  | some r => r.coins
  | none => 0

/-- The `last_daily` column of a user, `NULL` when the row is absent. -/
def lastDailyOf (db : Db) (uid : Nat) : Option String :=
  match db.users uid with
  | some r => r.last_daily
  | none => none

/-- The `ad_counter` column of a user, with the schema default 0 when the
row is absent. -/
def adCounterOf (db : Db) (uid : Nat) : Int :=
  match db.users uid with
  | some r => r.ad_counter
  | none => 0

/-- The `ads_watched` column of a user, default 0 when the row is absent. -/
def adsWatchedOf (db : Db) (uid : Nat) : Int :=
  match db.users uid with
  | some r => r.ads_watched
  | none => 0

/-- The `boost_until` column of a user, `NULL` when the row is absent. -/
def boostUntilOf (db : Db) (uid : Nat) : Option Nat :=
  match db.users uid with
  | some r => r.boost_until
  | none => none

/-- The `status` column of a submission, `NULL` when the row is absent. -/
def statusOf (db : Db) (sid : Nat) : Option String :=
  (db.subs sid).map SubRow.status

/-- `SELECT reward FROM tasks WHERE task_id = ?` with the handlers'
`t["reward"] if t else 0` default. -/
def rewardOf (db : Db) (tid : Nat) : Int :=
  match db.tasks tid with
  | some t => t.reward
  | none => 0

/-! ### `/webapp/daily_claim` (main.py lines 418-441) -/

/-- Result of the daily-claim endpoint: `{"ok": True, "coins_awarded": ...,
"coins_total": ...}` or `{"ok": False, "msg": "already_claimed"}`. -/
inductive DailyResult where
  | claimed (coins_awarded : Int) (coins_total : Int)
  | alreadyClaimed
deriving Repr, DecidableEq

/-- `daily_claim` from main.py lines 418-441 (database effect, after
`verify_init_data`): `INSERT OR IGNORE` the user, compare `last_daily` to
today's UTC date string, and either reject with `already_claimed` (no
commit, so no mutation) or credit the hardcoded `daily_reward = 50` and
set `last_daily = today`. -/
def daily_claim (uid : Nat) (uname : String) (today : String) (db : Db) :
    DailyResult × Db :=
  let row := getUserD db uid uname 0
  if row.last_daily = some today then
    (DailyResult.alreadyClaimed, db)
  else
    let row1 := { row with coins := row.coins + 50, last_daily := some today }
    (DailyResult.claimed 50 row1.coins, upsertUser db uid row1)

/-! ### Basic state lemmas -/

@[simp] theorem upsertUser_users_self (db : Db) (uid : Nat) (row : UserRow) :
    (upsertUser db uid row).users uid = some row := by
  simp [upsertUser]

theorem upsertUser_users_other (db : Db) (uid : Nat) (row : UserRow) (q : Nat)
    (h : q ≠ uid) : (upsertUser db uid row).users q = db.users q := by
  simp [upsertUser, h]

@[simp] theorem balanceOf_upsertUser_self (db : Db) (uid : Nat) (row : UserRow) :
    balanceOf (upsertUser db uid row) uid = row.coins := by
  simp [balanceOf, upsertUser]

@[simp] theorem lastDailyOf_upsertUser_self (db : Db) (uid : Nat) (row : UserRow) :
    lastDailyOf (upsertUser db uid row) uid = row.last_daily := by
  simp [lastDailyOf, upsertUser]

@[simp] theorem boostUntilOf_upsertUser_self (db : Db) (uid : Nat) (row : UserRow) :
    boostUntilOf (upsertUser db uid row) uid = row.boost_until := by
  simp [boostUntilOf, upsertUser]

@[simp] theorem adCounterOf_upsertUser_self (db : Db) (uid : Nat) (row : UserRow) :
    adCounterOf (upsertUser db uid row) uid = row.ad_counter := by
  simp [adCounterOf, upsertUser]

@[simp] theorem adsWatchedOf_upsertUser_self (db : Db) (uid : Nat) (row : UserRow) :
    adsWatchedOf (upsertUser db uid row) uid = row.ads_watched := by
  simp [adsWatchedOf, upsertUser]

theorem getUserD_coins (db : Db) (uid : Nat) (uname : String) :
    (getUserD db uid uname 0).coins = balanceOf db uid := by
  unfold getUserD balanceOf freshUser
  cases db.users uid <;> simp

theorem getUserD_last_daily (db : Db) (uid : Nat) (uname : String) :
    (getUserD db uid uname 0).last_daily = lastDailyOf db uid := by
  unfold getUserD lastDailyOf freshUser
  cases db.users uid <;> simp

theorem getUserD_ad_counter (db : Db) (uid : Nat) (uname : String) :
    (getUserD db uid uname 0).ad_counter = adCounterOf db uid := by
  unfold getUserD adCounterOf freshUser
  cases db.users uid <;> simp

theorem getUserD_ads_watched (db : Db) (uid : Nat) (uname : String) :
    (getUserD db uid uname 0).ads_watched = adsWatchedOf db uid := by
  unfold getUserD adsWatchedOf freshUser
  cases db.users uid <;> simp

theorem getUserD_boost_until (db : Db) (uid : Nat) (uname : String) :
    (getUserD db uid uname 0).boost_until = boostUntilOf db uid := by
  unfold getUserD boostUntilOf freshUser
  cases db.users uid <;> simp

/-- C1: `daily_claim` called twice for the same user on the same UTC date:
the first call succeeds, credits the daily reward 50 and sets `last_daily`
to today; the second call fails with `already_claimed` and leaves the whole
database state (in particular the user's `coins` and `last_daily`)
unchanged, so the balance changes exactly once. -/
theorem daily_claim_twice_same_day (db : Db) (uid : Nat) (uname today : String)
    (h : lastDailyOf db uid ≠ some today) :
    (daily_claim uid uname today db).1
        = DailyResult.claimed 50 (balanceOf db uid + 50)
    ∧ balanceOf (daily_claim uid uname today db).2 uid = balanceOf db uid + 50
    ∧ lastDailyOf (daily_claim uid uname today db).2 uid = some today
    ∧ daily_claim uid uname today (daily_claim uid uname today db).2
        = (DailyResult.alreadyClaimed, (daily_claim uid uname today db).2) := by
  have hc := getUserD_coins db uid uname
  have hld := getUserD_last_daily db uid uname
  have hne : ¬ (getUserD db uid uname 0).last_daily = some today := by
    rw [hld]; exact h
  simp only [daily_claim, if_neg hne]
  refine ⟨by rw [hc], by simp [hc], by simp, ?_⟩
  simp [daily_claim, getUserD]

/-- Witness for C1: a fresh user claiming twice on 2026-10-12. -/
theorem daily_claim_twice_same_day_witness :
    (daily_claim 1 "alice" "2026-10-12" db0).1 = DailyResult.claimed 50 50
    ∧ balanceOf (daily_claim 1 "alice" "2026-10-12" db0).2 1 = 50
    ∧ lastDailyOf (daily_claim 1 "alice" "2026-10-12" db0).2 1
        = some "2026-10-12"
    ∧ daily_claim 1 "alice" "2026-10-12" (daily_claim 1 "alice" "2026-10-12" db0).2
        = (DailyResult.alreadyClaimed,
           (daily_claim 1 "alice" "2026-10-12" db0).2) := by
  have h := daily_claim_twice_same_day db0 1 "alice" "2026-10-12"
    (by simp [lastDailyOf, db0])
  simpa using h

/-! ### `/webapp/ad_watched` (main.py lines 213-248) -/

/-- JSON body of a successful `/webapp/ad_watched` response. -/
structure AdResult where
  coins_awarded : Int
  coins_total : Int
  ads_watched : Int
  ads_to_next_boost : Int
  boost_until : Option Nat
deriving Repr, DecidableEq

/-- `ad_watched` from main.py lines 213-248 (database effect, after
`verify_init_data`): reject non-members with `join_channel`; otherwise
`INSERT OR IGNORE` the user, credit the hardcoded `coins_awarded = 100`,
increment `ads_watched`, and bump the streak counter.  When the bumped
counter reaches 3, `boost_until` is set to now + 2 hours (7200 s,
hardcoded as `datetime.timedelta(hours=2)`) and the counter resets to 0;
otherwise the bumped counter is persisted. -/
def ad_watched (member : Bool) (uid : Nat) (uname : String) (now : Nat)
    (db : Db) : Except String AdResult × Db :=
  if member then
    let row := getUserD db uid uname 0
    let row1 := { row with
      coins := row.coins + 100, ads_watched := row.ads_watched + 1 }
    let c := row.ad_counter + 1
    if 3 ≤ c then
      (Except.ok ⟨100, row1.coins, row1.ads_watched, 3, some (now + 7200)⟩,
        upsertUser db uid
          { row1 with boost_until := some (now + 7200), ad_counter := 0 })
    else
      (Except.ok ⟨100, row1.coins, row1.ads_watched, 3 - c, none⟩,
        upsertUser db uid { row1 with ad_counter := c })
  else (Except.error "join_channel", db)

/-- C3 counterexample: a fresh member user watches three ads at time 0.
The code sets `boost_until` to 7200 s (the hardcoded two hours), which is
not `now + BOOST_DURATION` (= 3600 s, Configure.py line 25), refuting the
claim that the configured boost duration is applied. -/
theorem ad_watched_boost_not_BOOST_DURATION :
    boostUntilOf
      (ad_watched true 1 "u" 0
        (ad_watched true 1 "u" 0 (ad_watched true 1 "u" 0 db0).2).2).2 1
      = some 7200
    ∧ (7200 : Nat) ≠ 0 + BOOST_DURATION := by
  constructor
  · rfl
  · decide

/-- C3 (amended): for a member with streak counter 0 and no prior boost,
three consecutive `ad_watched` calls leave `boost_until = now₃ + 7200`
(two hours, hardcoded — not the configured `BOOST_DURATION` of 3600 s)
and the streak counter reset to 0; a fourth call starts a new streak at 1
and keeps the boost timestamp; every call credits 100 coins and
increments `ads_watched` by 1. -/
theorem ad_watched_streak_behavior (db : Db) (uid : Nat) (un : String)
    (n1 n2 n3 n4 : Nat)
    (hc : adCounterOf db uid = 0) (hb : boostUntilOf db uid = none) :
    (ad_watched true uid un n1 db).1
        = Except.ok
            ⟨100, balanceOf db uid + 100, adsWatchedOf db uid + 1, 2, none⟩
    ∧ balanceOf (ad_watched true uid un n1 db).2 uid = balanceOf db uid + 100
    ∧ adCounterOf (ad_watched true uid un n1 db).2 uid = 1
    ∧ boostUntilOf (ad_watched true uid un n1 db).2 uid = none
    ∧ balanceOf (ad_watched true uid un n2 (ad_watched true uid un n1 db).2).2
          uid = balanceOf db uid + 200
    ∧ adCounterOf (ad_watched true uid un n2 (ad_watched true uid un n1 db).2).2
          uid = 2
    ∧ boostUntilOf
          (ad_watched true uid un n2 (ad_watched true uid un n1 db).2).2 uid
          = none
    ∧ balanceOf
          (ad_watched true uid un n3
            (ad_watched true uid un n2 (ad_watched true uid un n1 db).2).2).2
          uid = balanceOf db uid + 300
    ∧ adsWatchedOf
          (ad_watched true uid un n3
            (ad_watched true uid un n2 (ad_watched true uid un n1 db).2).2).2
          uid = adsWatchedOf db uid + 3
    ∧ adCounterOf
          (ad_watched true uid un n3
            (ad_watched true uid un n2 (ad_watched true uid un n1 db).2).2).2
          uid = 0
    ∧ boostUntilOf
          (ad_watched true uid un n3
            (ad_watched true uid un n2 (ad_watched true uid un n1 db).2).2).2
          uid = some (n3 + 7200)
    ∧ balanceOf
          (ad_watched true uid un n4
            (ad_watched true uid un n3
              (ad_watched true uid un n2
                (ad_watched true uid un n1 db).2).2).2).2 uid
          = balanceOf db uid + 400
    ∧ adsWatchedOf
          (ad_watched true uid un n4
            (ad_watched true uid un n3
              (ad_watched true uid un n2
                (ad_watched true uid un n1 db).2).2).2).2 uid
          = adsWatchedOf db uid + 4
    ∧ adCounterOf
          (ad_watched true uid un n4
            (ad_watched true uid un n3
              (ad_watched true uid un n2
                (ad_watched true uid un n1 db).2).2).2).2 uid = 1
    ∧ boostUntilOf
          (ad_watched true uid un n4
            (ad_watched true uid un n3
              (ad_watched true uid un n2
                (ad_watched true uid un n1 db).2).2).2).2 uid
          = some (n3 + 7200) := by
  rcases hdb : db.users uid with _ | r
  · simp only [adCounterOf, hdb] at hc
    simp [ad_watched, getUserD, upsertUser, balanceOf, adsWatchedOf,
      adCounterOf, boostUntilOf, freshUser, hdb]
  · simp only [adCounterOf, hdb] at hc
    simp only [boostUntilOf, hdb] at hb
    simp [ad_watched, getUserD, upsertUser, balanceOf, adsWatchedOf,
      adCounterOf, boostUntilOf, hdb, hc, hb]
    omega

/-- Witness for C3: a fresh member user, four ad views at times 10, 20,
30, 40. -/
theorem ad_watched_streak_behavior_witness :
    balanceOf
        (ad_watched true 1 "u" 30
          (ad_watched true 1 "u" 20 (ad_watched true 1 "u" 10 db0).2).2).2 1
        = 300
    ∧ adCounterOf
        (ad_watched true 1 "u" 30
          (ad_watched true 1 "u" 20 (ad_watched true 1 "u" 10 db0).2).2).2 1
        = 0
    ∧ boostUntilOf
        (ad_watched true 1 "u" 30
          (ad_watched true 1 "u" 20 (ad_watched true 1 "u" 10 db0).2).2).2 1
        = some 7230
    ∧ adCounterOf
        (ad_watched true 1 "u" 40
          (ad_watched true 1 "u" 30
            (ad_watched true 1 "u" 20
              (ad_watched true 1 "u" 10 db0).2).2).2).2 1 = 1 := by
  have h := ad_watched_streak_behavior db0 1 "u" 10 20 30 40
    (by simp [adCounterOf, db0]) (by simp [boostUntilOf, db0])
  exact ⟨by simpa using h.2.2.2.2.2.2.2.1,
    by simpa using h.2.2.2.2.2.2.2.2.2.1,
    by simpa using h.2.2.2.2.2.2.2.2.2.2.1,
    by simpa using h.2.2.2.2.2.2.2.2.2.2.2.2.2.1⟩

/-! ### Bot `/start` referral handling (main.py lines 505-517) -/

/-- `INSERT OR IGNORE INTO referrals (referrer_id, referred_id)`: the pair
of columns is the primary key, so an existing pair is kept as is. -/
def insertReferralOnce (l : List (Nat × Nat)) (p : Nat × Nat) :
    List (Nat × Nat) :=
  if p ∈ l then l else l ++ [p]

/-- `bot_start` from main.py lines 505-517 (database effect): `INSERT OR
IGNORE` the caller with a 100-coin signup bonus; when a numeric referral
argument is present, non-zero (Python truthiness of `int(args[0])`) and
different from the caller's id, insert the `(referrer, referred)` pair
into `referrals` (ignored when the pair already exists) and credit the
referrer's row, when it exists, with 200 coins.  The caller's own balance
is never touched by the referral branch. -/
def bot_start (uid : Nat) (uname : String) (ref : Option Nat) (db : Db) :
    Db :=
  let db1 := ensureUser db uid uname 100
  match ref with
  | some r =>
    if r ≠ 0 ∧ r ≠ uid then
      let db2 :=
        { db1 with referrals := insertReferralOnce db1.referrals (r, uid) }
      updateCoins db2 r 200
    else db1
  | none => db1

theorem mem_insertReferralOnce (l : List (Nat × Nat)) (p : Nat × Nat) :
    p ∈ insertReferralOnce l p := by
  unfold insertReferralOnce
  split
  · assumption
  · simp

theorem balanceOf_updateCoins_hit (d : Db) (r : Nat) (amt : Int)
    (rc : UserRow) (h : d.users r = some rc) :
    balanceOf (updateCoins d r amt) r = rc.coins + amt := by
  unfold updateCoins
  rw [h]
  simp [balanceOf, upsertUser]

theorem balanceOf_updateCoins_other (d : Db) (r : Nat) (amt : Int) (q : Nat)
    (h : q ≠ r) : balanceOf (updateCoins d r amt) q = balanceOf d q := by
  unfold updateCoins
  rcases hr : d.users r with _ | row
  · rfl
  · simp [balanceOf, upsertUser, h]

theorem users_updateCoins_other (d : Db) (r : Nat) (amt : Int) (q : Nat)
    (h : q ≠ r) : (updateCoins d r amt).users q = d.users q := by
  unfold updateCoins
  rcases hr : d.users r with _ | row
  · rfl
  · simp [upsertUser, h]

theorem users_updateCoins_isSome (d : Db) (r : Nat) (amt : Int) (q : Nat) :
    ((updateCoins d r amt).users q).isSome = (d.users q).isSome := by
  unfold updateCoins
  rcases hr : d.users r with _ | row
  · rfl
  · by_cases hq : q = r
    · subst hq; simp [upsertUser, hr]
    · simp [upsertUser, hq]

theorem referrals_updateCoins (d : Db) (r : Nat) (amt : Int) :
    (updateCoins d r amt).referrals = d.referrals := by
  unfold updateCoins
  rcases hr : d.users r with _ | row
  · rfl
  · simp [upsertUser]

theorem users_ensureUser_other (d : Db) (uid : Nat) (un : String) (c : Int)
    (q : Nat) (h : q ≠ uid) : (ensureUser d uid un c).users q = d.users q := by
  unfold ensureUser
  split
  · rfl
  · exact upsertUser_users_other _ _ _ _ h

theorem users_ensureUser_self_isSome (d : Db) (uid : Nat) (un : String)
    (c : Int) : ((ensureUser d uid un c).users uid).isSome = true := by
  unfold ensureUser
  split
  · assumption
  · simp [upsertUser]

theorem balanceOf_ensureUser_self (d : Db) (uid : Nat) (un : String)
    (c : Int) :
    balanceOf (ensureUser d uid un c) uid
      = (if (d.users uid).isSome then balanceOf d uid else c) := by
  unfold ensureUser
  rcases hd : d.users uid with _ | r
  · simp [upsertUser, balanceOf, freshUser, hd]
  · simp [hd]

theorem balanceOf_ensureUser_other (d : Db) (uid : Nat) (un : String)
    (c : Int) (q : Nat) (h : q ≠ uid) :
    balanceOf (ensureUser d uid un c) q = balanceOf d q := by
  unfold ensureUser
  split
  · rfl
  · simp [balanceOf, upsertUser_users_other _ _ _ _ h]

theorem referrals_ensureUser (d : Db) (uid : Nat) (un : String) (c : Int) :
    (ensureUser d uid un c).referrals = d.referrals := by
  unfold ensureUser
  split
  · rfl
  · simp [upsertUser]

theorem balanceOf_set_referrals (d : Db) (l : List (Nat × Nat)) (q : Nat) :
    balanceOf { d with referrals := l } q = balanceOf d q := rfl

theorem referrals_set_referrals (d : Db) (l : List (Nat × Nat)) :
    (Db.referrals { d with referrals := l }) = l := rfl

theorem bot_start_some_eq (d : Db) (a c : Nat) (un : String)
    (h0 : c ≠ 0) (hca : c ≠ a) :
    bot_start a un (some c) d
      = updateCoins
          { ensureUser d a un 100 with
            referrals :=
              insertReferralOnce (ensureUser d a un 100).referrals (c, a) }
          c 200 := by
  simp only [bot_start]
  rw [if_pos ⟨h0, hca⟩]

theorem bot_start_credits_referrer (d : Db) (a c : Nat) (un : String)
    (h0 : c ≠ 0) (hca : c ≠ a) (hex : (d.users c).isSome) :
    balanceOf (bot_start a un (some c) d) c = balanceOf d c + 200 := by
  obtain ⟨rc, hrc⟩ := Option.isSome_iff_exists.mp hex
  rw [bot_start_some_eq d a c un h0 hca]
  have h1 : (Db.users
      { ensureUser d a un 100 with
        referrals :=
          insertReferralOnce (ensureUser d a un 100).referrals (c, a) } c)
      = some rc := by
    show (ensureUser d a un 100).users c = some rc
    rw [users_ensureUser_other d a un 100 c hca]
    exact hrc
  rw [balanceOf_updateCoins_hit _ _ _ rc h1]
  simp [balanceOf, hrc]

/-- C2 counterexample: users B (id 2) and C (id 3) exist with balance 0;
new user A (id 1) runs `/start 2`, then `/start 3`.  The first call leaves
A at exactly its 100-coin signup bonus — A receives no referral reward —
and the second call is not rejected with `AlreadyReferred`: it records the
pair `(3, 1)` and credits C with 200 coins, so a balance other than A's
and B's changes after the first call. -/
theorem bot_start_referral_ce :
    balanceOf (bot_start 1 "A" (some 2)
        (upsertUser (upsertUser db0 2 (freshUser "B" 0)) 3
          (freshUser "C" 0))) 1 = 100
    ∧ balanceOf (bot_start 1 "A" (some 2)
        (upsertUser (upsertUser db0 2 (freshUser "B" 0)) 3
          (freshUser "C" 0))) 2 = 200
    ∧ balanceOf (bot_start 1 "A" (some 3)
        (bot_start 1 "A" (some 2)
          (upsertUser (upsertUser db0 2 (freshUser "B" 0)) 3
            (freshUser "C" 0)))) 3 = 200
    ∧ (3, 1) ∈ (Db.referrals (bot_start 1 "A" (some 3)
        (bot_start 1 "A" (some 2)
          (upsertUser (upsertUser db0 2 (freshUser "B" 0)) 3
            (freshUser "C" 0))))) := by
  decide

/-- C2 (amended): when new user A starts with the code of an existing
inviter B (B non-zero, B ≠ A), the code records `(B, A)` in the
`referrals` table and credits ONLY B's balance with the 200-coin referral
reward; A's balance is not credited by the referral branch (an absent A is
merely created with the 100-coin signup bonus) and no other balance
changes.  There is no `AlreadyReferred` protection: a subsequent start by
A with any existing code C (C non-zero, C ≠ A) credits C's balance with a
further 200 coins. -/
theorem bot_start_referral_behavior (db : Db) (a b : Nat) (un : String)
    (hb0 : b ≠ 0) (hba : b ≠ a) (hbex : (db.users b).isSome) :
    balanceOf (bot_start a un (some b) db) b = balanceOf db b + 200
    ∧ balanceOf (bot_start a un (some b) db) a
        = (if (db.users a).isSome then balanceOf db a else 100)
    ∧ (b, a) ∈ (bot_start a un (some b) db).referrals
    ∧ (∀ q, q ≠ a → q ≠ b →
        balanceOf (bot_start a un (some b) db) q = balanceOf db q)
    ∧ ∀ c, c ≠ 0 → c ≠ a →
        ((bot_start a un (some b) db).users c).isSome →
        balanceOf (bot_start a un (some c) (bot_start a un (some b) db)) c
          = balanceOf (bot_start a un (some b) db) c + 200 := by
  refine ⟨bot_start_credits_referrer db a b un hb0 hba hbex, ?_, ?_, ?_, ?_⟩
  · rw [bot_start_some_eq db a b un hb0 hba,
      balanceOf_updateCoins_other _ _ _ _ (Ne.symm hba),
      balanceOf_set_referrals, balanceOf_ensureUser_self]
  · rw [bot_start_some_eq db a b un hb0 hba, referrals_updateCoins,
      referrals_set_referrals]
    exact mem_insertReferralOnce _ _
  · intro q hqa hqb
    rw [bot_start_some_eq db a b un hb0 hba,
      balanceOf_updateCoins_other _ _ _ _ hqb,
      balanceOf_set_referrals, balanceOf_ensureUser_other db a un 100 q hqa]
  · intro c hc0 hca hcex
    exact bot_start_credits_referrer _ a c un hc0 hca hcex

/-- Witness for C2 (amended): new user 1 starting with existing user 2's
code; then a second start with existing user 3's code credits 3. -/
theorem bot_start_referral_behavior_witness :
    balanceOf (bot_start 1 "A" (some 2)
        (upsertUser (upsertUser db0 2 (freshUser "B" 7)) 3
          (freshUser "C" 0))) 2 = 207
    ∧ balanceOf (bot_start 1 "A" (some 2)
        (upsertUser (upsertUser db0 2 (freshUser "B" 7)) 3
          (freshUser "C" 0))) 1 = 100
    ∧ (2, 1) ∈ (Db.referrals (bot_start 1 "A" (some 2)
        (upsertUser (upsertUser db0 2 (freshUser "B" 7)) 3
          (freshUser "C" 0))))
    ∧ balanceOf (bot_start 1 "A" (some 3)
        (bot_start 1 "A" (some 2)
          (upsertUser (upsertUser db0 2 (freshUser "B" 7)) 3
            (freshUser "C" 0)))) 3 = 200 := by
  have h := bot_start_referral_behavior
    (upsertUser (upsertUser db0 2 (freshUser "B" 7)) 3 (freshUser "C" 0))
    1 2 "A" (by decide) (by decide) (by decide)
  refine ⟨by simpa using h.1, by simpa using h.2.1, h.2.2.1, ?_⟩
  have h5 := h.2.2.2.2 3 (by decide) (by decide) (by decide)
  simpa using h5

/-! ### `/webapp/review_submission` (main.py lines 321-363) -/

/-- Successful review outcomes: `{"ok": True, "msg": "approved",
"reward": ...}` or `{"ok": True, "msg": "rejected"}`. -/
inductive ReviewResult where
  | approved (reward : Int)
  | rejected
deriving Repr, DecidableEq

/-- Overwrite the `task_submissions` row keyed by `sid`. -/
def setSub (db : Db) (sid : Nat) (row : SubRow) : Db :=
  { db with subs := fun s => if s = sid then some row else db.subs s }

/-- `review_submission` from main.py lines 321-363 (database effect, after
`verify_init_data`): non-admins get `admin_only`; an unknown submission id
gets `submission_not_found`; a submission whose status is not `pending`
gets `submission_already_reviewed` with no mutation (the connection is
closed without commit).  On `approve`, the CURRENT reward of the
referenced task is looked up (0 when the task row is absent), the
submitter is `INSERT OR IGNORE`d and credited, and the row is set to
`approved` with `reviewed_by` and `review_reason`.  On `reject` the row is
set to `rejected` with `reviewed_by` and `review_reason` and nothing is
credited.  The `task_submissions` schema has no `reviewed_at` column, so
no review timestamp is ever stored. -/
def review_submission (adminIds : List Nat) (uid : Nat) (sid : Nat)
    (action : String) (reason : String) (db : Db) :
    Except String ReviewResult × Db :=
  if uid ∈ adminIds then
    match db.subs sid with
    | none => (Except.error "submission_not_found", db)
    | some row =>
      if row.status = "pending" then
        if action = "approve" then
          let reward := rewardOf db row.task_id
          let db1 :=
            ensureUser db row.user_id ("user" ++ toString row.user_id) 0
          let db2 := updateCoins db1 row.user_id reward
          let row1 :=
            { row with status := "approved", reviewed_by := some uid,
                       review_reason := some reason }
          (Except.ok (ReviewResult.approved reward), setSub db2 sid row1)
        else if action = "reject" then
          let row1 :=
            { row with status := "rejected", reviewed_by := some uid,
                       review_reason := some reason }
          (Except.ok ReviewResult.rejected, setSub db sid row1)
        else (Except.error "invalid_action", db)
      else (Except.error "submission_already_reviewed", db)
  else (Except.error "admin_only", db)

/-- C4: reviewing a submission whose status is not `pending` (already
approved or already rejected) fails with `submission_already_reviewed`
and performs no mutation at all: the returned state is the input state,
so the submitter's balance and the submission's status, reviewer and
reason are all unchanged. -/
theorem review_already_reviewed_no_mutation (adminIds : List Nat)
    (uid sid : Nat) (reason : String) (db : Db) (row : SubRow)
    (hadm : uid ∈ adminIds) (hrow : db.subs sid = some row)
    (hst : row.status ≠ "pending") :
    review_submission adminIds uid sid "approve" reason db
      = (Except.error "submission_already_reviewed", db) := by
  unfold review_submission
  rw [if_pos hadm, hrow]
  simp [hst]

/-- Witness for C4: admin 9 re-approves the already-approved submission 1;
the call is rejected and the state, in particular submitter 5's balance,
is unchanged. -/
theorem review_already_reviewed_no_mutation_witness :
    review_submission [9] 9 1 "approve" "again"
        (setSub db0 1
          { user_id := 5, task_id := 1, file_path := "f.jpg",
            status := "approved", submitted_at := 0,
            reviewed_by := some 9, review_reason := some "ok" })
      = (Except.error "submission_already_reviewed",
         setSub db0 1
          { user_id := 5, task_id := 1, file_path := "f.jpg",
            status := "approved", submitted_at := 0,
            reviewed_by := some 9, review_reason := some "ok" }) := by
  exact review_already_reviewed_no_mutation [9] 9 1 "again"
    (setSub db0 1
      { user_id := 5, task_id := 1, file_path := "f.jpg",
        status := "approved", submitted_at := 0,
        reviewed_by := some 9, review_reason := some "ok" })
    { user_id := 5, task_id := 1, file_path := "f.jpg",
      status := "approved", submitted_at := 0,
      reviewed_by := some 9, review_reason := some "ok" }
    (by decide) (by simp [setSub]) (by decide)

/-- Overwrite the `tasks` row keyed by `tid`. -/
def setTask (db : Db) (tid : Nat) (row : TaskRow) : Db :=
  { db with tasks := fun t => if t = tid then some row else db.tasks t }

theorem balanceOf_setSub (d : Db) (sid : Nat) (row : SubRow) (q : Nat) :
    balanceOf (setSub d sid row) q = balanceOf d q := rfl

theorem statusOf_setSub_self (d : Db) (sid : Nat) (row : SubRow) :
    statusOf (setSub d sid row) sid = some row.status := by
  simp [statusOf, setSub]

theorem balanceOf_updateCoins_self (d : Db) (r : Nat) (amt : Int)
    (h : (d.users r).isSome = true) :
    balanceOf (updateCoins d r amt) r = balanceOf d r + amt := by
  obtain ⟨rc, hrc⟩ := Option.isSome_iff_exists.mp h
  rw [balanceOf_updateCoins_hit d r amt rc hrc]
  simp [balanceOf, hrc]

theorem balanceOf_ensureUser_zero (d : Db) (uid : Nat) (un : String) :
    balanceOf (ensureUser d uid un 0) uid = balanceOf d uid := by
  rw [balanceOf_ensureUser_self]
  rcases hd : d.users uid with _ | r
  · simp [balanceOf, hd]
  · simp [hd]

/-- Fixture for evaluating C5: task 1 with reward 70; submitter 5 with
balance 10; pending submissions 1 and 2 both for task 1; admin 9. -/
def c5db : Db :=
  setSub
    (setSub (upsertUser (setTask db0 1 ⟨"T", "", "", 70⟩) 5 (freshUser "u5" 10))
      1 ⟨5, 1, "f1.jpg", "pending", 3, none, none⟩)
    2 ⟨5, 1, "f2.jpg", "pending", 4, none, none⟩

/-- C5: evaluation of `review_submission` at the failing input.  Approval
of pending submission 1 by admin 9 credits the CURRENT task reward 70 to
submitter 5 and stores status `approved`, `reviewed_by = 9` and
`review_reason`; rejection of pending submission 2 stores status
`rejected`, `reviewed_by = 9` and `review_reason` and credits nothing.
The resulting rows — shown in full — carry no review timestamp: the
`task_submissions` schema has no `reviewed_at` column (the Configure.py
variant computes `reviewed_at` and then discards it, its UPDATE setting
`submitted_at = submitted_at`), contradicting the claim that
`reviewed_at` is recorded. -/
theorem review_submission_no_reviewed_at :
    (review_submission [9] 9 1 "approve" "ok" c5db).1
        = Except.ok (ReviewResult.approved 70)
    ∧ balanceOf (review_submission [9] 9 1 "approve" "ok" c5db).2 5 = 80
    ∧ (review_submission [9] 9 1 "approve" "ok" c5db).2.subs 1
        = some { user_id := 5, task_id := 1, file_path := "f1.jpg",
                 status := "approved", submitted_at := 3,
                 reviewed_by := some 9, review_reason := some "ok" }
    ∧ (review_submission [9] 9 2 "reject" "bad" c5db).1
        = Except.ok ReviewResult.rejected
    ∧ balanceOf (review_submission [9] 9 2 "reject" "bad" c5db).2 5 = 10
    ∧ (review_submission [9] 9 2 "reject" "bad" c5db).2.subs 2
        = some { user_id := 5, task_id := 1, file_path := "f2.jpg",
                 status := "rejected", submitted_at := 4,
                 reviewed_by := some 9, review_reason := some "bad" } := by
  exact ⟨rfl, rfl, rfl, rfl, rfl, rfl⟩

/-- C10: approving a pending submission whose `task_id` resolves to no
task row does not fail: the reward defaults to 0 (`t["reward"] if t else
0`), the submitter's balance is unchanged (credited by 0), and the
submission still transitions to `approved`. -/
theorem review_approve_missing_task (adminIds : List Nat) (uid sid : Nat)
    (reason : String) (db : Db) (row : SubRow)
    (hadm : uid ∈ adminIds) (hrow : db.subs sid = some row)
    (hst : row.status = "pending") (htask : db.tasks row.task_id = none) :
    (review_submission adminIds uid sid "approve" reason db).1
        = Except.ok (ReviewResult.approved 0)
    ∧ balanceOf (review_submission adminIds uid sid "approve" reason db).2
          row.user_id = balanceOf db row.user_id
    ∧ statusOf (review_submission adminIds uid sid "approve" reason db).2 sid
        = some "approved" := by
  have key : review_submission adminIds uid sid "approve" reason db
      = (Except.ok (ReviewResult.approved 0),
         setSub
           (updateCoins
             (ensureUser db row.user_id ("user" ++ toString row.user_id) 0)
             row.user_id 0)
           sid
           { row with status := "approved", reviewed_by := some uid,
                      review_reason := some reason }) := by
    simp [review_submission, hadm, hrow, hst, rewardOf, htask]
  rw [key]
  refine ⟨rfl, ?_, ?_⟩
  · rw [balanceOf_setSub,
      balanceOf_updateCoins_self _ _ _
        (users_ensureUser_self_isSome db row.user_id _ 0),
      balanceOf_ensureUser_zero]
    simp
  · rw [statusOf_setSub_self]

/-- Witness for C10: admin 9 approves pending submission 1 whose task id
42 has no task row; submitter 5 keeps balance 3 and the submission is
approved with reward 0. -/
theorem review_approve_missing_task_witness :
    (review_submission [9] 9 1 "approve" "r"
        (setSub (upsertUser db0 5 (freshUser "u" 3)) 1
          ⟨5, 42, "f.jpg", "pending", 0, none, none⟩)).1
        = Except.ok (ReviewResult.approved 0)
    ∧ balanceOf (review_submission [9] 9 1 "approve" "r"
        (setSub (upsertUser db0 5 (freshUser "u" 3)) 1
          ⟨5, 42, "f.jpg", "pending", 0, none, none⟩)).2 5 = 3
    ∧ statusOf (review_submission [9] 9 1 "approve" "r"
        (setSub (upsertUser db0 5 (freshUser "u" 3)) 1
          ⟨5, 42, "f.jpg", "pending", 0, none, none⟩)).2 1
        = some "approved" := by
  have h := review_approve_missing_task [9] 9 1 "r"
    (setSub (upsertUser db0 5 (freshUser "u" 3)) 1
      ⟨5, 42, "f.jpg", "pending", 0, none, none⟩)
    ⟨5, 42, "f.jpg", "pending", 0, none, none⟩
    (by decide) rfl rfl rfl
  exact ⟨h.1, by rw [h.2.1]; rfl, h.2.2⟩

/-! ### Task administration (main.py lines 365-405, Configure.py 453-487) -/

/-- `add_task` from main.py lines 365-385: requires a non-empty title and
an admin caller; inserts the task at the next AUTOINCREMENT id.  The
reward is `int(payload.get("reward") or 0)` — no sign check exists. -/
def add_task (adminIds : List Nat) (uid : Nat) (title descr link : String)
    (reward : Int) (db : Db) : Except String Unit × Db :=
  if title = "" then (Except.error "bad_request", db)
  else if uid ∈ adminIds then
    (Except.ok (),
      { setTask db db.nextTaskId ⟨title, descr, link, reward⟩ with
        nextTaskId := db.nextTaskId + 1 })
  else (Except.error "admin_only", db)

/-- `UPDATE tasks SET title = COALESCE(?,title), ... WHERE task_id = ?`
from Configure.py line 467: each `NULL` parameter keeps the old column. -/
def updateTaskRow (old : TaskRow) (title descr link : Option String)
    (reward : Option Int) : TaskRow :=
  { title := title.getD old.title, description := descr.getD old.description,
    link := link.getD old.link, reward := reward.getD old.reward }

/-- Apply `f` to the task row keyed by `tid` when it exists. -/
def mapTask (db : Db) (tid : Nat) (f : TaskRow → TaskRow) : Db :=
  { db with tasks := fun t => if t = tid then (db.tasks t).map f else db.tasks t }

/-- `edit_task` from Configure.py lines 453-469: requires a truthy task id
and an admin caller; COALESCE-updates the row (no-op when absent). -/
def edit_task (adminIds : List Nat) (uid : Nat) (taskId : Nat)
    (title descr link : Option String) (reward : Option Int) (db : Db) :
    Except String Unit × Db :=
  if taskId = 0 then (Except.error "bad_request", db)
  else if uid ∈ adminIds then
    (Except.ok (),
      mapTask db taskId (fun old => updateTaskRow old title descr link reward))
  else (Except.error "admin_only", db)

/-- `DELETE FROM tasks WHERE task_id = ?` followed by `DELETE FROM
task_submissions WHERE task_id = ?` (main.py lines 402-403). -/
def removeTaskCascade (db : Db) (tid : Nat) : Db :=
  { db with
    tasks := fun t => if t = tid then none else db.tasks t,
    subs := fun s =>
      (db.subs s).bind (fun r => if r.task_id = tid then none else some r) }

/-- `delete_task` from main.py lines 387-405: requires a truthy task id
and an admin caller; hard-deletes the task row and every submission row
referencing it. -/
def delete_task (adminIds : List Nat) (uid : Nat) (taskId : Nat) (db : Db) :
    Except String Unit × Db :=
  if taskId = 0 then (Except.error "bad_request", db)
  else if uid ∈ adminIds then (Except.ok (), removeTaskCascade db taskId)
  else (Except.error "admin_only", db)

/-- C9: `delete_task` by an admin hard-deletes the task row and every
submission row whose `task_id` references it — a subsequent
`review_submission` lookup of any such submission id fails with
`submission_not_found` — while rows of other tasks, submissions of other
tasks and every user row are unchanged. -/
theorem delete_task_cascades (adminIds : List Nat) (uid taskId : Nat)
    (db : Db) (hadm : uid ∈ adminIds) (h0 : taskId ≠ 0) :
    (delete_task adminIds uid taskId db).1 = Except.ok ()
    ∧ (delete_task adminIds uid taskId db).2.tasks taskId = none
    ∧ (∀ t, t ≠ taskId →
        (delete_task adminIds uid taskId db).2.tasks t = db.tasks t)
    ∧ (∀ s r, db.subs s = some r → r.task_id = taskId →
        (delete_task adminIds uid taskId db).2.subs s = none
        ∧ review_submission adminIds uid s "approve" ""
            (delete_task adminIds uid taskId db).2
          = (Except.error "submission_not_found",
             (delete_task adminIds uid taskId db).2))
    ∧ (∀ s r, db.subs s = some r → r.task_id ≠ taskId →
        (delete_task adminIds uid taskId db).2.subs s = some r)
    ∧ (delete_task adminIds uid taskId db).2.users = db.users := by
  have hd : delete_task adminIds uid taskId db
      = (Except.ok (), removeTaskCascade db taskId) := by
    simp [delete_task, h0, hadm]
  rw [hd]
  refine ⟨rfl, by simp [removeTaskCascade], ?_, ?_, ?_, rfl⟩
  · intro t ht
    simp [removeTaskCascade, ht]
  · intro s r hs hr
    have hnone : (removeTaskCascade db taskId).subs s = none := by
      simp [removeTaskCascade, hs, hr]
    refine ⟨hnone, ?_⟩
    unfold review_submission
    rw [if_pos hadm, hnone]
  · intro s r hs hr
    simp [removeTaskCascade, hs, hr]

/-- Witness for C9: tasks 1 and 2 exist; submissions 1 and 2 reference
task 1, submission 3 references task 2; admin 9 deletes task 1. -/
theorem delete_task_cascades_witness :
    (delete_task [9] 9 1
        (setSub (setSub (setSub
          (upsertUser (setTask (setTask db0 1 ⟨"A", "", "", 10⟩) 2
            ⟨"B", "", "", 20⟩) 5 (freshUser "u" 0))
          1 ⟨5, 1, "a", "pending", 0, none, none⟩)
          2 ⟨5, 1, "b", "pending", 0, none, none⟩)
          3 ⟨5, 2, "c", "pending", 0, none, none⟩)).2.tasks 1 = none
    ∧ (delete_task [9] 9 1
        (setSub (setSub (setSub
          (upsertUser (setTask (setTask db0 1 ⟨"A", "", "", 10⟩) 2
            ⟨"B", "", "", 20⟩) 5 (freshUser "u" 0))
          1 ⟨5, 1, "a", "pending", 0, none, none⟩)
          2 ⟨5, 1, "b", "pending", 0, none, none⟩)
          3 ⟨5, 2, "c", "pending", 0, none, none⟩)).2.subs 1 = none
    ∧ (delete_task [9] 9 1
        (setSub (setSub (setSub
          (upsertUser (setTask (setTask db0 1 ⟨"A", "", "", 10⟩) 2
            ⟨"B", "", "", 20⟩) 5 (freshUser "u" 0))
          1 ⟨5, 1, "a", "pending", 0, none, none⟩)
          2 ⟨5, 1, "b", "pending", 0, none, none⟩)
          3 ⟨5, 2, "c", "pending", 0, none, none⟩)).2.subs 2 = none
    ∧ review_submission [9] 9 1 "approve" ""
        (delete_task [9] 9 1
          (setSub (setSub (setSub
            (upsertUser (setTask (setTask db0 1 ⟨"A", "", "", 10⟩) 2
              ⟨"B", "", "", 20⟩) 5 (freshUser "u" 0))
            1 ⟨5, 1, "a", "pending", 0, none, none⟩)
            2 ⟨5, 1, "b", "pending", 0, none, none⟩)
            3 ⟨5, 2, "c", "pending", 0, none, none⟩)).2
        = (Except.error "submission_not_found",
           (delete_task [9] 9 1
            (setSub (setSub (setSub
              (upsertUser (setTask (setTask db0 1 ⟨"A", "", "", 10⟩) 2
                ⟨"B", "", "", 20⟩) 5 (freshUser "u" 0))
              1 ⟨5, 1, "a", "pending", 0, none, none⟩)
              2 ⟨5, 1, "b", "pending", 0, none, none⟩)
              3 ⟨5, 2, "c", "pending", 0, none, none⟩)).2)
    ∧ (delete_task [9] 9 1
        (setSub (setSub (setSub
          (upsertUser (setTask (setTask db0 1 ⟨"A", "", "", 10⟩) 2
            ⟨"B", "", "", 20⟩) 5 (freshUser "u" 0))
          1 ⟨5, 1, "a", "pending", 0, none, none⟩)
          2 ⟨5, 1, "b", "pending", 0, none, none⟩)
          3 ⟨5, 2, "c", "pending", 0, none, none⟩)).2.subs 3
        = some ⟨5, 2, "c", "pending", 0, none, none⟩
    ∧ (delete_task [9] 9 1
        (setSub (setSub (setSub
          (upsertUser (setTask (setTask db0 1 ⟨"A", "", "", 10⟩) 2
            ⟨"B", "", "", 20⟩) 5 (freshUser "u" 0))
          1 ⟨5, 1, "a", "pending", 0, none, none⟩)
          2 ⟨5, 1, "b", "pending", 0, none, none⟩)
          3 ⟨5, 2, "c", "pending", 0, none, none⟩)).2.tasks 2
        = some ⟨"B", "", "", 20⟩ := by
  have h := delete_task_cascades [9] 9 1
    (setSub (setSub (setSub
      (upsertUser (setTask (setTask db0 1 ⟨"A", "", "", 10⟩) 2
        ⟨"B", "", "", 20⟩) 5 (freshUser "u" 0))
      1 ⟨5, 1, "a", "pending", 0, none, none⟩)
      2 ⟨5, 1, "b", "pending", 0, none, none⟩)
      3 ⟨5, 2, "c", "pending", 0, none, none⟩)
    (by decide) (by decide)
  refine ⟨h.2.1,
    (h.2.2.2.1 1 ⟨5, 1, "a", "pending", 0, none, none⟩ rfl rfl).1,
    (h.2.2.2.1 2 ⟨5, 1, "b", "pending", 0, none, none⟩ rfl rfl).1,
    (h.2.2.2.1 1 ⟨5, 1, "a", "pending", 0, none, none⟩ rfl rfl).2,
    h.2.2.2.2.1 3 ⟨5, 2, "c", "pending", 0, none, none⟩ rfl (by decide),
    ?_⟩
  rw [h.2.2.1 2 (by decide)]
  rfl

/-! ### `/webapp/submit_proof` (Configure.py lines 355-394, main.py
lines 250-271) -/

/-- Configure.py line 352: `MAX_UPLOAD_BYTES = 5 * 1024 * 1024`. -/
def MAX_UPLOAD_BYTES : Nat := 5 * 1024 * 1024

/-- Configure.py line 353: the allow-listed image extensions. -/
def ALLOWED_EXT : List String := [".jpg", ".jpeg", ".png", ".gif", ".webp"]

/-- Index of the last occurrence of `c`, if any. -/
def lastIdxOf (c : Char) : List Char → Option Nat
  | [] => none
  | x :: xs =>
    match lastIdxOf c xs with
    | some i => some (i + 1)
    | none => if x = c then some 0 else none

/-- `pathlib.Path(filename).suffix` for a plain file name: the substring
from the last dot, unless that dot is the first or the last character. -/
def suffixOf (filename : String) : String :=
  let cs := filename.toList
  match lastIdxOf '.' cs with
  | some i => if 0 < i ∧ i < cs.length - 1 then String.mk (cs.drop i) else ""
  | none => ""

/-- Python `str.lower`, on ASCII names. -/
def lowerStr (s : String) : String :=
  String.mk (s.toList.map Char.toLower)

/-- Configure.py line 371: `pathlib.Path(file.filename or
"").suffix.lower() or ".jpg"`. -/
def extOf (filename : String) : String :=
  let s := lowerStr (suffixOf filename)
  if s = "" then ".jpg" else s

/-- main.py line 261: `pathlib.Path(file.filename).suffix or ".jpg"`
(no lowercasing). -/
def extOfMain (filename : String) : String :=
  let s := suffixOf filename
  if s = "" then ".jpg" else s

/-- Failure modes of proof submission (HTTP `detail` strings
`join_channel`, `empty_file`, `file_too_big`, `invalid_extension`,
`invalid_image`). -/
inductive SubmitError where
  | joinChannel
  | emptyFile
  | fileTooBig
  | invalidExtension
  | invalidImage
deriving Repr, DecidableEq

/-- `submit_proof` from Configure.py lines 355-394 (database effect, after
`verify_init_data`): membership, then empty-payload, size,
declared-extension and Pillow image validation in that order; on success
the proof is stored under `f"{uid}_{ts}{ext}"` and a `pending` submission
row is inserted.  `validImage` stands for the external
`PIL.Image.open(...).verify()` check. -/
def submit_proof (validImage : List UInt8 → Bool) (member : Bool)
    (uid : Nat) (uname : String) (taskId : Nat) (filename : String)
    (content : List UInt8) (now : Nat) (db : Db) :
    Except SubmitError Unit × Db :=
  if member then
    if content = [] then (Except.error SubmitError.emptyFile, db)
    else if MAX_UPLOAD_BYTES < content.length then
      (Except.error SubmitError.fileTooBig, db)
    else if extOf filename ∉ ALLOWED_EXT then
      (Except.error SubmitError.invalidExtension, db)
    else if validImage content then
      let fname := toString uid ++ "_" ++ toString now ++ extOf filename
      let db1 := ensureUser db uid uname 0
      (Except.ok (),
        { setSub db1 db1.nextSubId
            ⟨uid, taskId, fname, "pending", now, none, none⟩ with
          nextSubId := db1.nextSubId + 1 })
    else (Except.error SubmitError.invalidImage, db)
  else (Except.error SubmitError.joinChannel, db)

/-- `submit_proof` from main.py lines 250-271 (database effect): the
pre-patch variant performs NO size, emptiness, extension or image
validation — any payload from a member produces a `pending` submission
row. -/
def submit_proof_main (member : Bool) (uid : Nat) (uname : String)
    (taskId : Nat) (filename : String) (_content : List UInt8) (now : Nat)
    (db : Db) : Except SubmitError Unit × Db :=
  if member then
    let fname := toString uid ++ "_" ++ toString now ++ extOfMain filename
    let db1 := ensureUser db uid uname 0
    (Except.ok (),
      { setSub db1 db1.nextSubId
          ⟨uid, taskId, fname, "pending", now, none, none⟩ with
        nextSubId := db1.nextSubId + 1 })
  else (Except.error SubmitError.joinChannel, db)

theorem nextSubId_ensureUser (d : Db) (uid : Nat) (un : String) (c : Int) :
    (ensureUser d uid un c).nextSubId = d.nextSubId := by
  unfold ensureUser
  split <;> rfl

/-- C6 counterexample: the main.py variant of `submit_proof` accepts a
6 MiB payload (6291456 bytes, above the 5 MiB maximum) from a member and
creates a `pending` submission row instead of failing with
`FileTooLarge`. -/
theorem submit_proof_main_accepts_oversized :
    (List.replicate 6291456 (1 : UInt8)).length = 6291456
    ∧ MAX_UPLOAD_BYTES < 6291456
    ∧ (submit_proof_main true 1 "u" 1 "a.jpg"
        (List.replicate 6291456 (1 : UInt8)) 0 db0).1 = Except.ok ()
    ∧ statusOf (submit_proof_main true 1 "u" 1 "a.jpg"
        (List.replicate 6291456 (1 : UInt8)) 0 db0).2 1 = some "pending" := by
  refine ⟨List.length_replicate _ _, by decide, rfl, rfl⟩

/-- C6 (amended, for the patched Configure.py variant): for a member, an
empty payload fails with `EmptyFile`; a payload above 5 MiB fails with
`FileTooLarge`; an allow-list miss of the declared extension fails with
`InvalidExtension`; content rejected by the image decoder fails with
`InvalidImage` even with an allow-listed extension — each without
creating a submission row (the state is returned unchanged) — and a
valid payload creates a submission row with status `pending`.  The
main.py variant performs none of these checks. -/
theorem submit_proof_validation (validImage : List UInt8 → Bool)
    (uid taskId : Nat) (uname filename : String) (content : List UInt8)
    (now : Nat) (db : Db) :
    (content = [] →
      submit_proof validImage true uid uname taskId filename content now db
        = (Except.error SubmitError.emptyFile, db))
    ∧ (MAX_UPLOAD_BYTES < content.length →
      submit_proof validImage true uid uname taskId filename content now db
        = (Except.error SubmitError.fileTooBig, db))
    ∧ (content ≠ [] → content.length ≤ MAX_UPLOAD_BYTES →
       extOf filename ∉ ALLOWED_EXT →
      submit_proof validImage true uid uname taskId filename content now db
        = (Except.error SubmitError.invalidExtension, db))
    ∧ (content ≠ [] → content.length ≤ MAX_UPLOAD_BYTES →
       extOf filename ∈ ALLOWED_EXT → validImage content = false →
      submit_proof validImage true uid uname taskId filename content now db
        = (Except.error SubmitError.invalidImage, db))
    ∧ (content ≠ [] → content.length ≤ MAX_UPLOAD_BYTES →
       extOf filename ∈ ALLOWED_EXT → validImage content = true →
      (submit_proof validImage true uid uname taskId filename content now
          db).1 = Except.ok ()
      ∧ (submit_proof validImage true uid uname taskId filename content now
          db).2.subs db.nextSubId
        = some ⟨uid, taskId,
            toString uid ++ "_" ++ toString now ++ extOf filename,
            "pending", now, none, none⟩
      ∧ (submit_proof validImage true uid uname taskId filename content now
          db).2.nextSubId = db.nextSubId + 1) := by
  refine ⟨?_, ?_, ?_, ?_, ?_⟩
  · intro h
    simp [submit_proof, h]
  · intro h
    have hne : content ≠ [] := by
      intro he
      rw [he] at h
      simp [MAX_UPLOAD_BYTES] at h
    simp [submit_proof, hne, h]
  · intro h1 h2 h3
    have h2' : ¬ MAX_UPLOAD_BYTES < content.length := not_lt.mpr h2
    simp [submit_proof, h1, h2', h3]
  · intro h1 h2 h3 h4
    have h2' : ¬ MAX_UPLOAD_BYTES < content.length := not_lt.mpr h2
    simp [submit_proof, h1, h2', h3, h4]
  · intro h1 h2 h3 h4
    have h2' : ¬ MAX_UPLOAD_BYTES < content.length := not_lt.mpr h2
    refine ⟨by simp [submit_proof, h1, h2', h3, h4], ?_, ?_⟩
    · simp [submit_proof, h1, h2', h3, h4, setSub, nextSubId_ensureUser]
    · simp [submit_proof, h1, h2', h3, h4, setSub, nextSubId_ensureUser]

set_option maxRecDepth 8192 in
/-- Witness for C6: empty payload, a 6 MiB payload, a `.txt` extension,
a rejected image, and a valid 10 KiB upload named `photo.JPG`. -/
theorem submit_proof_validation_witness :
    submit_proof (fun _ => true) true 1 "u" 1 "a.jpg" [] 0 db0
      = (Except.error SubmitError.emptyFile, db0)
    ∧ submit_proof (fun _ => true) true 1 "u" 1 "a.jpg"
        (List.replicate 6291456 1) 0 db0
      = (Except.error SubmitError.fileTooBig, db0)
    ∧ submit_proof (fun _ => true) true 1 "u" 1 "a.txt" [1] 0 db0
      = (Except.error SubmitError.invalidExtension, db0)
    ∧ submit_proof (fun _ => false) true 1 "u" 1 "a.jpg" [1] 0 db0
      = (Except.error SubmitError.invalidImage, db0)
    ∧ (submit_proof (fun _ => true) true 1 "u" 1 "photo.JPG"
        (List.replicate 10240 1) 7 db0).1 = Except.ok ()
    ∧ (submit_proof (fun _ => true) true 1 "u" 1 "photo.JPG"
        (List.replicate 10240 1) 7 db0).2.subs 1
      = some ⟨1, 1, "1_7.jpg", "pending", 7, none, none⟩ := by
  have hA := (submit_proof_validation (fun _ => true) 1 1 "u" "a.jpg"
    [] 0 db0).1 rfl
  have hB := (submit_proof_validation (fun _ => true) 1 1 "u" "a.jpg"
    (List.replicate 6291456 1) 0 db0).2.1
    (by rw [List.length_replicate]; decide)
  have hC := (submit_proof_validation (fun _ => true) 1 1 "u" "a.txt"
    [1] 0 db0).2.2.1 (by decide) (by decide) (by decide)
  have hD := (submit_proof_validation (fun _ => false) 1 1 "u" "a.jpg"
    [1] 0 db0).2.2.2.1 (by decide) (by decide) (by decide) rfl
  have hne : List.replicate 10240 (1 : UInt8) ≠ [] := by
    intro he
    have h10 : (List.replicate 10240 (1 : UInt8)).length = 0 := by
      rw [he]; rfl
    rw [List.length_replicate] at h10
    exact absurd h10 (by decide)
  have hE := (submit_proof_validation (fun _ => true) 1 1 "u" "photo.JPG"
    (List.replicate 10240 1) 7 db0).2.2.2.2 hne
    (by rw [List.length_replicate]; decide) (by decide) rfl
  refine ⟨hA, hB, hC, hD, hE.1, ?_⟩
  have h61 := hE.2.1
  have hid : db0.nextSubId = 1 := rfl
  rw [hid] at h61
  rw [h61]
  rfl

/-! ### `verify_init_data` (main.py lines 106-126, identical in
Configure.py lines 190-210)

`urllib.parse.parse_qsl` with its defaults (`keep_blank_values=False`,
`strict_parsing=False`) is modelled structurally for inputs without
percent-escapes: split on `&`, split each chunk at its first `=`, skip
chunks without `=` or with an empty value, and `dict(...)` keeps the last
value of a repeated key.  The HMAC-SHA256 primitive
`hmac.new(sha256(bot_token.encode()).digest(), msg, sha256).hexdigest()`
is an external crypto oracle passed in as `hmacHex : token → message →
hex digest`.  The `json.loads` post-processing of the `user` field does
not affect acceptance and is not modelled. -/

def splitOnChar (c : Char) : List Char → List (List Char)
  | [] => [[]]
  | x :: xs =>
    let r := splitOnChar c xs
    if x = c then [] :: r
    else
      match r with
      | [] => [[x]]
      | y :: ys => (x :: y) :: ys

def splitFirst (c : Char) : List Char → Option (List Char × List Char)
  | [] => none
  | x :: xs =>
    if x = c then some ([], xs)
    else
      match splitFirst c xs with
      | some (a, b) => some (x :: a, b)
      | none => none

/-- One `name=value` chunk of a query string; `none` for chunks that
`parse_qsl` skips (no `=`, or a blank value). -/
def parsePair (part : List Char) : Option (String × String) :=
  match splitFirst '=' part with
  | none => none
  | some (k, v) => if v = [] then none else some (String.mk k, String.mk v)

/-- `dict(...)` accumulation: a repeated key keeps its first position and
takes the last value. -/
def upsertKV (acc : List (String × String)) (kv : String × String) :
    List (String × String) :=
  if acc.any (fun p => p.1 == kv.1) then
    acc.map (fun p => if p.1 = kv.1 then kv else p)
  else acc ++ [kv]

/-- `dict(parse_qsl(init_data, strict_parsing=False))`. -/
def parseQsl (s : String) : List (String × String) :=
  ((splitOnChar '&' s.toList).filterMap parsePair).foldl upsertKV []

/-- Code-point comparison of strings, as Python `sorted` uses. -/
def leChars : List Char → List Char → Bool
  | [], _ => true
  | _ :: _, [] => false
  | a :: as, b :: bs => if a = b then leChars as bs else decide (a < b)

def strLe (a b : String) : Bool := leChars a.toList b.toList

def insertSorted (k : String) : List String → List String
  | [] => [k]
  | x :: xs => if strLe k x then k :: x :: xs else x :: insertSorted k xs

/-- `sorted(parsed.keys())`. -/
def sortKeys (l : List String) : List String :=
  l.foldr insertSorted []

/-- `"\n".join(f"{k}={parsed[k]}" for k in sorted(parsed.keys()))`. -/
def dataCheckString (parsed : List (String × String)) : String :=
  String.intercalate "\n"
    ((sortKeys (parsed.map Prod.fst)).map
      (fun k => k ++ "=" ++ ((parsed.lookup k).getD "")))

/-- The two failure modes of `verify_init_data`: `ValueError("Missing
init_data")` and `ValueError("Invalid init_data hash")`. -/
inductive AuthError where
  | missingInitData
  | invalidHash
deriving Repr, DecidableEq

/-- `verify_init_data` from main.py lines 106-126: empty input fails with
`missingInitData`; the `hash` field is popped; ONLY when a hash was
supplied and the bot token is configured is the keyed digest of the
canonical string compared to it (`invalidHash` on mismatch).  An input
without a `hash` field is returned as trusted without any verification,
even when the token is configured. -/
def verify_init_data (hmacHex : String → String → String)
    (initData : String) (botToken : String) :
    Except AuthError (List (String × String)) :=
  if initData = "" then Except.error AuthError.missingInitData
  else
    let parsed := parseQsl initData
    match parsed.lookup "hash" with
    | some checkHash =>
      let rest := parsed.filter (fun p => p.1 != "hash")
      if botToken ≠ "" then
        if hmacHex botToken (dataCheckString rest) ≠ checkHash then
          Except.error AuthError.invalidHash
        else Except.ok rest
      else Except.ok rest
    | none => Except.ok parsed

/-- A concrete stand-in digest oracle for the C7 counterexample. -/
def hmacHexCe (tok msg : String) : String := tok ++ ":" ++ msg

/-- A digest oracle that returns the constant `"H"`, for the C7
witness. -/
def hmacHexConstH (_tok _msg : String) : String := "H"

/-- C7 counterexample: with the secret configured (`"tok" ≠ ""`), the
non-empty assertion `"user=abc"` carries NO `hash` field at all, yet
`verify_init_data` accepts it and returns its fields — refuting the claim
that verification succeeds only when the supplied hash matches the keyed
digest and that no other input is accepted when the secret is
configured. -/
theorem verify_init_data_accepts_hashless :
    verify_init_data hmacHexCe "user=abc" "tok"
        = Except.ok [("user", "abc")]
    ∧ (parseQsl "user=abc").lookup "hash" = none
    ∧ "tok" ≠ "" := by
  refine ⟨rfl, rfl, by decide⟩

/-- C7 (amended): an empty assertion fails with `missingInitData`.  When
a `hash` field IS supplied and the secret is configured, acceptance is
exactly equality of the supplied hash with the keyed digest of the
canonical sorted `key=value` string of the remaining fields; a mismatch
fails with `invalidHash`.  However an assertion without a `hash` field is
accepted unverified even when the secret is configured. -/
theorem verify_init_data_behavior (hmacHex : String → String → String)
    (initData botToken : String) :
    (initData = "" →
      verify_init_data hmacHex initData botToken
        = Except.error AuthError.missingInitData)
    ∧ (∀ ch, initData ≠ "" →
        (parseQsl initData).lookup "hash" = some ch → botToken ≠ "" →
        (hmacHex botToken
            (dataCheckString
              ((parseQsl initData).filter (fun p => p.1 != "hash"))) = ch →
          verify_init_data hmacHex initData botToken
            = Except.ok
                ((parseQsl initData).filter (fun p => p.1 != "hash")))
        ∧ (hmacHex botToken
            (dataCheckString
              ((parseQsl initData).filter (fun p => p.1 != "hash"))) ≠ ch →
          verify_init_data hmacHex initData botToken
            = Except.error AuthError.invalidHash))
    ∧ (initData ≠ "" → (parseQsl initData).lookup "hash" = none →
        verify_init_data hmacHex initData botToken
          = Except.ok (parseQsl initData)) := by
  refine ⟨?_, ?_, ?_⟩
  · intro h
    simp [verify_init_data, h]
  · intro ch h1 h2 h3
    constructor
    · intro h4
      simp [verify_init_data, h1, h2, h3, h4]
    · intro h4
      simp [verify_init_data, h1, h2, h3, h4]
  · intro h1 h2
    simp [verify_init_data, h1, h2]

/-- Witness for C7: an empty assertion; a matching hash (constant oracle
`"H"`); a mismatching hash; and a hashless assertion accepted without
verification. -/
theorem verify_init_data_behavior_witness :
    verify_init_data hmacHexCe "" "tok"
        = Except.error AuthError.missingInitData
    ∧ verify_init_data hmacHexConstH "user=abc&hash=H" "tok"
        = Except.ok [("user", "abc")]
    ∧ verify_init_data hmacHexCe "user=abc&hash=H" "tok"
        = Except.error AuthError.invalidHash
    ∧ verify_init_data hmacHexCe "query_id=1" "tok"
        = Except.ok [("query_id", "1")] := by
  have h1 := (verify_init_data_behavior hmacHexCe "" "tok").1 rfl
  have h2 := ((verify_init_data_behavior hmacHexConstH "user=abc&hash=H"
    "tok").2.1 "H" (by decide) rfl (by decide)).1 rfl
  have h3 := ((verify_init_data_behavior hmacHexCe "user=abc&hash=H"
    "tok").2.1 "H" (by decide) rfl (by decide)).2 (by decide)
  have h4 := (verify_init_data_behavior hmacHexCe "query_id=1" "tok").2.2
    (by decide) rfl
  exact ⟨h1, h2, h3, h4⟩

/-! ### The reward-accounting trace machine (C8)

One inductive step per balance-touching handler; `applyOp` dispatches to
the handler embeddings above, so the trace machine IS the embedded code. -/

inductive Op where
  | start (uid : Nat) (uname : String) (ref : Option Nat)
  | adWatch (member : Bool) (uid : Nat) (uname : String) (now : Nat)
  | daily (uid : Nat) (uname : String) (today : String)
  | submit (member : Bool) (valid : Bool) (uid : Nat) (uname : String)
      (taskId : Nat) (filename : String) (content : List UInt8) (now : Nat)
  | review (uid sid : Nat) (action reason : String)
  | addTask (uid : Nat) (title descr link : String) (reward : Int)
  | editTask (uid : Nat) (taskId : Nat) (title descr link : Option String)
      (reward : Option Int)
  | delTask (uid : Nat) (taskId : Nat)

def applyOp (adminIds : List Nat) (db : Db) : Op → Db
  | Op.start uid un ref => bot_start uid un ref db
  | Op.adWatch m uid un now => (ad_watched m uid un now db).2
  | Op.daily uid un t => (daily_claim uid un t db).2
  | Op.submit m v uid un tid fn c now =>
      (submit_proof (fun _ => v) m uid un tid fn c now db).2
  | Op.review uid sid a r => (review_submission adminIds uid sid a r db).2
  | Op.addTask uid t d l r => (add_task adminIds uid t d l r db).2
  | Op.editTask uid tid t d l r => (edit_task adminIds uid tid t d l r db).2
  | Op.delTask uid tid => (delete_task adminIds uid tid db).2

def applyOps (adminIds : List Nat) (db : Db) (ops : List Op) : Db :=
  ops.foldl (applyOp adminIds) db

/-- The credit events an operation causes in state `db`: signup bonus,
referrer reward, ad reward, daily reward, and approval reward (the
referenced task's CURRENT reward, 0 when absent).  No operation emits a
debit event. -/
def creditsOf (adminIds : List Nat) (db : Db) : Op → List (Nat × Int)
  | Op.start uid _ ref =>
    (if (db.users uid).isSome then [] else [(uid, 100)])
      ++ (match ref with
          | some r =>
            if r ≠ 0 ∧ r ≠ uid ∧ (db.users r).isSome then [(r, 200)]
            else []
          | none => [])
  | Op.adWatch m uid _ _ => if m then [(uid, 100)] else []
  | Op.daily uid _ t =>
    if lastDailyOf db uid = some t then [] else [(uid, 50)]
  | Op.submit _ _ _ _ _ _ _ _ => []
  | Op.review uid sid a _ =>
    if uid ∈ adminIds then
      match db.subs sid with
      | some row =>
        if row.status = "pending" ∧ a = "approve" then
          [(row.user_id, rewardOf db row.task_id)]
        else []
      | none => []
    else []
  | Op.addTask _ _ _ _ _ => []
  | Op.editTask _ _ _ _ _ _ => []
  | Op.delTask _ _ => []

/-- The part of a credit-event list that lands on account `uid`. -/
def sumFor (uid : Nat) (l : List (Nat × Int)) : Int :=
  (l.map (fun p => if p.1 = uid then p.2 else 0)).sum

/-- All credit events of a trace, each computed in the state it fires
in. -/
def traceCredits (adminIds : List Nat) : Db → List Op → List (Nat × Int)
  | _, [] => []
  | db, op :: ops =>
    creditsOf adminIds db op
      ++ traceCredits adminIds (applyOp adminIds db op) ops

/-- The reward arguments an operation carries are non-negative (only task
creation and editing carry one; the code never validates this). -/
def opRewardsNonneg : Op → Prop
  | Op.addTask _ _ _ _ r => 0 ≤ r
  | Op.editTask _ _ _ _ _ r => ∀ x, r = some x → 0 ≤ x
  | _ => True

/-- Every task row in the store has a non-negative reward. -/
def tasksNonneg (db : Db) : Prop :=
  ∀ tid t, db.tasks tid = some t → 0 ≤ t.reward

theorem sumFor_nil (q : Nat) : sumFor q [] = 0 := rfl

theorem sumFor_append (q : Nat) (a b : List (Nat × Int)) :
    sumFor q (a ++ b) = sumFor q a + sumFor q b := by
  simp [sumFor]

theorem sumFor_single (q u : Nat) (x : Int) :
    sumFor q [(u, x)] = if u = q then x else 0 := by
  simp [sumFor]

theorem sumFor_nonneg (q : Nat) (l : List (Nat × Int))
    (h : ∀ p ∈ l, 0 ≤ p.2) : 0 ≤ sumFor q l := by
  unfold sumFor
  apply List.sum_nonneg
  intro x hx
  obtain ⟨p, hp, hpx⟩ := List.mem_map.mp hx
  by_cases hq : p.1 = q
  · rw [← hpx, if_pos hq]
    exact h p hp
  · rw [← hpx, if_neg hq]

theorem balanceOf_ensureUser_cases (d : Db) (uid : Nat) (un : String)
    (c : Int) (q : Nat) :
    balanceOf (ensureUser d uid un c) q
      = balanceOf d q
        + (if q = uid ∧ (d.users uid).isSome = false then c else 0) := by
  unfold ensureUser
  by_cases h : (d.users uid).isSome
  · simp [h]
  · by_cases hq : q = uid
    · subst hq
      have hnone : d.users q = none := Option.not_isSome_iff_eq_none.mp h
      simp [upsertUser, balanceOf, freshUser, hnone, h]
    · simp [balanceOf, h, upsertUser_users_other _ _ _ _ hq, hq]

theorem balanceOf_updateCoins_cases (d : Db) (r : Nat) (amt : Int)
    (q : Nat) :
    balanceOf (updateCoins d r amt) q
      = balanceOf d q
        + (if q = r ∧ (d.users r).isSome then amt else 0) := by
  unfold updateCoins
  rcases hr : d.users r with _ | row
  · simp [hr]
  · by_cases hq : q = r
    · subst hq
      simp [balanceOf, upsertUser, hr]
    · simp [balanceOf, upsertUser, hq, hr]

theorem users_set_referrals (d : Db) (l : List (Nat × Nat)) :
    (Db.users { d with referrals := l }) = d.users := rfl

theorem sumFor_cons (q u : Nat) (x : Int) (l : List (Nat × Int)) :
    sumFor q ((u, x) :: l) = (if q = u then x else 0) + sumFor q l := by
  by_cases h : q = u
  · subst h
    simp [sumFor]
  · have h' : ¬ u = q := fun hh => h hh.symm
    simp [sumFor, h, h']

theorem sumFor_single' (q u : Nat) (x : Int) :
    sumFor q [(u, x)] = if q = u then x else 0 := by
  rw [sumFor_cons, sumFor_nil, add_zero]

/-- Each operation changes every balance by exactly the sum of the credit
events it emits for that account. -/
theorem balanceOf_applyOp (adminIds : List Nat) (db : Db) (op : Op)
    (q : Nat) :
    balanceOf (applyOp adminIds db op) q
      = balanceOf db q + sumFor q (creditsOf adminIds db op) := by
  cases op with
  | start uid un ref =>
    rcases ref with _ | r
    · show balanceOf (bot_start uid un none db) q = _
      simp only [bot_start]
      rw [balanceOf_ensureUser_cases]
      rcases hA : db.users uid with _ | ra <;>
        simp [creditsOf, sumFor_single', sumFor_nil, hA]
    · show balanceOf (bot_start uid un (some r) db) q = _
      by_cases hg : r ≠ 0 ∧ r ≠ uid
      · rw [bot_start_some_eq db uid r un hg.1 hg.2,
          balanceOf_updateCoins_cases, users_set_referrals,
          users_ensureUser_other db uid un 100 r hg.2,
          balanceOf_set_referrals, balanceOf_ensureUser_cases]
        rcases hA : db.users uid with _ | ra <;>
          rcases hs : db.users r with _ | rr <;>
          simp [creditsOf, sumFor_append, sumFor_cons, sumFor_single',
            sumFor_nil, hg.1, hg.2, hA, hs]
        all_goals omega
      · have hbs : bot_start uid un (some r) db
            = ensureUser db uid un 100 := by
          simp only [bot_start]
          rw [if_neg hg]
        rw [hbs, balanceOf_ensureUser_cases]
        have hg' : ¬ (r ≠ 0 ∧ r ≠ uid ∧ (db.users r).isSome = true) := by
          intro hc
          exact hg ⟨hc.1, hc.2.1⟩
        simp only [creditsOf, if_neg hg', List.append_nil]
        rcases hA : db.users uid with _ | ra <;>
          simp [sumFor_single', sumFor_nil, hA]
  | adWatch m uid un now =>
    cases m with
    | false => simp [applyOp, ad_watched, creditsOf, sumFor_nil]
    | true =>
      by_cases hc : 3 ≤ (getUserD db uid un 0).ad_counter + 1 <;>
        by_cases hq : q = uid
      · subst hq
        simp [applyOp, ad_watched, hc, balanceOf, upsertUser, creditsOf,
          sumFor_single', getUserD_coins]
      · simp [applyOp, ad_watched, hc, hq, balanceOf, upsertUser,
          creditsOf, sumFor_single']
      · subst hq
        simp [applyOp, ad_watched, hc, balanceOf, upsertUser, creditsOf,
          sumFor_single', getUserD_coins]
      · simp [applyOp, ad_watched, hc, hq, balanceOf, upsertUser,
          creditsOf, sumFor_single']
  | daily uid un t =>
    by_cases h : lastDailyOf db uid = some t
    · have h' : (getUserD db uid un 0).last_daily = some t := by
        rw [getUserD_last_daily]; exact h
      simp [applyOp, daily_claim, h', creditsOf, h, sumFor_nil]
    · have h' : ¬ (getUserD db uid un 0).last_daily = some t := by
        rw [getUserD_last_daily]; exact h
      by_cases hq : q = uid
      · subst hq
        simp [applyOp, daily_claim, h', creditsOf, h, sumFor_single',
          balanceOf, upsertUser, getUserD_coins]
      · simp [applyOp, daily_claim, h', creditsOf, h, sumFor_single',
          hq, balanceOf, upsertUser]
  | submit m v uid un tid fn c now =>
    cases m with
    | false => simp [applyOp, submit_proof, creditsOf, sumFor_nil]
    | true =>
      by_cases h1 : c = []
      · simp [applyOp, submit_proof, h1, creditsOf, sumFor_nil]
      · by_cases h2 : MAX_UPLOAD_BYTES < c.length
        · simp [applyOp, submit_proof, h1, h2, creditsOf, sumFor_nil]
        · by_cases h3 : extOf fn ∈ ALLOWED_EXT
          · cases v with
            | false =>
              simp [applyOp, submit_proof, h1, h2, h3, creditsOf,
                sumFor_nil]
            | true =>
              have hr : (submit_proof (fun _ => true) true uid un tid fn c
                  now db).2
                  = { setSub (ensureUser db uid un 0)
                        (ensureUser db uid un 0).nextSubId
                        ⟨uid, tid,
                         toString uid ++ "_" ++ toString now ++ extOf fn,
                         "pending", now, none, none⟩ with
                      nextSubId := (ensureUser db uid un 0).nextSubId
                        + 1 } := by
                simp [submit_proof, h1, h2, h3]
              have hb : balanceOf ((submit_proof (fun _ => true) true uid
                  un tid fn c now db).2) q
                  = balanceOf (ensureUser db uid un 0) q := by
                rw [hr]
                rfl
              rw [show applyOp adminIds db
                  (Op.submit true true uid un tid fn c now)
                  = (submit_proof (fun _ => true) true uid un tid fn c now
                      db).2 from rfl]
              rw [hb, balanceOf_ensureUser_cases]
              simp [creditsOf, sumFor_nil]
          · simp [applyOp, submit_proof, h1, h2, h3, creditsOf,
              sumFor_nil]
  | review uid sid a r =>
    by_cases hadm : uid ∈ adminIds
    · rcases hsub : db.subs sid with _ | row
      · simp [applyOp, review_submission, hadm, hsub, creditsOf,
          sumFor_nil]
      · by_cases hp : row.status = "pending"
        · by_cases ha : a = "approve"
          · subst ha
            have hkey : (review_submission adminIds uid sid "approve" r
                db).2
                = setSub
                    (updateCoins
                      (ensureUser db row.user_id
                        ("user" ++ toString row.user_id) 0)
                      row.user_id (rewardOf db row.task_id))
                    sid
                    { row with
                      status := "approved", reviewed_by := some uid,
                      review_reason := some r } := by
              simp [review_submission, hadm, hsub, hp]
            rw [show applyOp adminIds db (Op.review uid sid "approve" r)
                = (review_submission adminIds uid sid "approve" r db).2
                from rfl]
            rw [hkey, balanceOf_setSub, balanceOf_updateCoins_cases,
              users_ensureUser_self_isSome, balanceOf_ensureUser_cases]
            simp [creditsOf, hadm, hsub, hp, sumFor_single']
          · by_cases hr2 : a = "reject"
            · subst hr2
              have hkey : (review_submission adminIds uid sid "reject" r
                  db).2
                  = setSub db sid
                      { row with
                        status := "rejected", reviewed_by := some uid,
                        review_reason := some r } := by
                simp [review_submission, hadm, hsub, hp]
              rw [show applyOp adminIds db (Op.review uid sid "reject" r)
                  = (review_submission adminIds uid sid "reject" r db).2
                  from rfl]
              rw [hkey, balanceOf_setSub]
              simp [creditsOf, hadm, hsub, hp, sumFor_nil]
            · have hkey : (review_submission adminIds uid sid a r db).2
                  = db := by
                simp [review_submission, hadm, hsub, hp, ha, hr2]
              rw [show applyOp adminIds db (Op.review uid sid a r)
                  = (review_submission adminIds uid sid a r db).2
                  from rfl]
              rw [hkey]
              simp [creditsOf, hadm, hsub, hp, ha, sumFor_nil]
        · have hkey : (review_submission adminIds uid sid a r db).2
              = db := by
            simp [review_submission, hadm, hsub, hp]
          rw [show applyOp adminIds db (Op.review uid sid a r)
              = (review_submission adminIds uid sid a r db).2 from rfl]
          rw [hkey]
          simp [creditsOf, hadm, hsub, hp, sumFor_nil]
    · simp [applyOp, review_submission, hadm, creditsOf, sumFor_nil]
  | addTask uid t d l rw =>
    by_cases ht : t = ""
    · simp [applyOp, add_task, ht, creditsOf, sumFor_nil]
    · by_cases hadm : uid ∈ adminIds <;>
        simp [applyOp, add_task, ht, hadm, creditsOf, sumFor_nil,
          balanceOf, setTask]
  | editTask uid tid t d l rw =>
    by_cases h0 : tid = 0
    · simp [applyOp, edit_task, h0, creditsOf, sumFor_nil]
    · by_cases hadm : uid ∈ adminIds <;>
        simp [applyOp, edit_task, h0, hadm, creditsOf, sumFor_nil,
          balanceOf, mapTask]
  | delTask uid tid =>
    by_cases h0 : tid = 0
    · simp [applyOp, delete_task, h0, creditsOf, sumFor_nil]
    · by_cases hadm : uid ∈ adminIds <;>
        simp [applyOp, delete_task, h0, hadm, creditsOf, sumFor_nil,
          balanceOf, removeTaskCascade]

@[simp] theorem tasks_upsertUser (d : Db) (uid : Nat) (row : UserRow) :
    (upsertUser d uid row).tasks = d.tasks := rfl

@[simp] theorem tasks_setSub (d : Db) (sid : Nat) (row : SubRow) :
    (setSub d sid row).tasks = d.tasks := rfl

@[simp] theorem tasks_set_referrals (d : Db) (l : List (Nat × Nat)) :
    (Db.tasks { d with referrals := l }) = d.tasks := rfl

@[simp] theorem tasks_ensureUser (d : Db) (uid : Nat) (un : String)
    (c : Int) : (ensureUser d uid un c).tasks = d.tasks := by
  unfold ensureUser
  split <;> rfl

@[simp] theorem tasks_updateCoins (d : Db) (r : Nat) (amt : Int) :
    (updateCoins d r amt).tasks = d.tasks := by
  unfold updateCoins
  rcases hr : d.users r with _ | row <;> rfl

theorem tasks_bot_start (db : Db) (uid : Nat) (un : String)
    (ref : Option Nat) : (bot_start uid un ref db).tasks = db.tasks := by
  rcases ref with _ | r
  · simp [bot_start]
  · by_cases hg : r ≠ 0 ∧ r ≠ uid
    · rw [bot_start_some_eq db uid r un hg.1 hg.2]
      simp
    · simp only [bot_start]
      rw [if_neg hg]
      simp

theorem tasks_ad_watched (m : Bool) (uid : Nat) (un : String) (now : Nat)
    (db : Db) : ((ad_watched m uid un now db).2).tasks = db.tasks := by
  cases m with
  | false => rfl
  | true =>
    simp only [ad_watched, if_true]
    split <;> simp

theorem tasks_daily (uid : Nat) (un t : String) (db : Db) :
    ((daily_claim uid un t db).2).tasks = db.tasks := by
  simp only [daily_claim]
  split <;> simp

theorem tasks_submit (v : List UInt8 → Bool) (m : Bool) (uid : Nat)
    (un : String) (tid : Nat) (fn : String) (c : List UInt8) (now : Nat)
    (db : Db) : ((submit_proof v m uid un tid fn c now db).2).tasks
      = db.tasks := by
  cases m with
  | false => rfl
  | true =>
    simp only [submit_proof, if_true]
    repeat' split
    all_goals simp

theorem tasks_review (adminIds : List Nat) (uid sid : Nat) (a r : String)
    (db : Db) : ((review_submission adminIds uid sid a r db).2).tasks
      = db.tasks := by
  simp only [review_submission]
  repeat' split
  all_goals simp

theorem tasksNonneg_of_eq {d1 d2 : Db} (h : d2.tasks = d1.tasks)
    (hn : tasksNonneg d1) : tasksNonneg d2 := by
  intro tid t ht
  rw [h] at ht
  exact hn tid t ht

theorem tasksNonneg_applyOp (adminIds : List Nat) (db : Db) (op : Op)
    (hn : tasksNonneg db) (hop : opRewardsNonneg op) :
    tasksNonneg (applyOp adminIds db op) := by
  cases op with
  | start uid un ref => exact tasksNonneg_of_eq (tasks_bot_start db uid un ref) hn
  | adWatch m uid un now =>
    exact tasksNonneg_of_eq (tasks_ad_watched m uid un now db) hn
  | daily uid un t => exact tasksNonneg_of_eq (tasks_daily uid un t db) hn
  | submit m v uid un tid fn c now =>
    exact tasksNonneg_of_eq (tasks_submit (fun _ => v) m uid un tid fn c now db) hn
  | review uid sid a r =>
    exact tasksNonneg_of_eq (tasks_review adminIds uid sid a r db) hn
  | addTask uid t d l rew =>
    by_cases ht : t = ""
    · have hkey : (add_task adminIds uid t d l rew db).2 = db := by
        simp [add_task, ht]
      show tasksNonneg ((add_task adminIds uid t d l rew db).2)
      rw [hkey]
      exact hn
    · by_cases hadm : uid ∈ adminIds
      · have hkey : (add_task adminIds uid t d l rew db).2
            = { setTask db db.nextTaskId ⟨t, d, l, rew⟩ with
                nextTaskId := db.nextTaskId + 1 } := by
          simp [add_task, ht, hadm]
        show tasksNonneg ((add_task adminIds uid t d l rew db).2)
        rw [hkey]
        intro tid tk htk
        have htk' : (if tid = db.nextTaskId then some (⟨t, d, l, rew⟩ : TaskRow)
            else db.tasks tid) = some tk := htk
        by_cases hid : tid = db.nextTaskId
        · rw [if_pos hid] at htk'
          cases htk'
          exact hop
        · rw [if_neg hid] at htk'
          exact hn tid tk htk'
      · have hkey : (add_task adminIds uid t d l rew db).2 = db := by
          simp [add_task, ht, hadm]
        show tasksNonneg ((add_task adminIds uid t d l rew db).2)
        rw [hkey]
        exact hn
  | editTask uid tid t d l rew =>
    by_cases h0 : tid = 0
    · have hkey : (edit_task adminIds uid tid t d l rew db).2 = db := by
        simp [edit_task, h0]
      show tasksNonneg ((edit_task adminIds uid tid t d l rew db).2)
      rw [hkey]
      exact hn
    · by_cases hadm : uid ∈ adminIds
      · have hkey : (edit_task adminIds uid tid t d l rew db).2
            = mapTask db tid
                (fun old => updateTaskRow old t d l rew) := by
          simp [edit_task, h0, hadm]
        show tasksNonneg ((edit_task adminIds uid tid t d l rew db).2)
        rw [hkey]
        intro tid' tk htk
        have htk' : (if tid' = tid then
            (db.tasks tid').map (fun old => updateTaskRow old t d l rew)
            else db.tasks tid') = some tk := htk
        by_cases hid : tid' = tid
        · rw [if_pos hid] at htk'
          rcases hold : db.tasks tid' with _ | old
          · rw [hold] at htk'
            cases htk'
          · rw [hold] at htk'
            have : updateTaskRow old t d l rew = tk :=
              Option.some_injective _ htk'
            rw [← this]
            rcases rew with _ | x
            · simpa [updateTaskRow] using hn tid' old hold
            · simpa [updateTaskRow] using hop x rfl
        · rw [if_neg hid] at htk'
          exact hn tid' tk htk'
      · have hkey : (edit_task adminIds uid tid t d l rew db).2 = db := by
          simp [edit_task, h0, hadm]
        show tasksNonneg ((edit_task adminIds uid tid t d l rew db).2)
        rw [hkey]
        exact hn
  | delTask uid tid =>
    by_cases h0 : tid = 0
    · have hkey : (delete_task adminIds uid tid db).2 = db := by
        simp [delete_task, h0]
      show tasksNonneg ((delete_task adminIds uid tid db).2)
      rw [hkey]
      exact hn
    · by_cases hadm : uid ∈ adminIds
      · have hkey : (delete_task adminIds uid tid db).2
            = removeTaskCascade db tid := by
          simp [delete_task, h0, hadm]
        show tasksNonneg ((delete_task adminIds uid tid db).2)
        rw [hkey]
        intro tid' tk htk
        have htk' : (if tid' = tid then none else db.tasks tid')
            = some tk := htk
        by_cases hid : tid' = tid
        · rw [if_pos hid] at htk'
          cases htk'
        · rw [if_neg hid] at htk'
          exact hn tid' tk htk'
      · have hkey : (delete_task adminIds uid tid db).2 = db := by
          simp [delete_task, h0, hadm]
        show tasksNonneg ((delete_task adminIds uid tid db).2)
        rw [hkey]
        exact hn

/-- With non-negative task rewards in the store, every emitted credit
event is non-negative. -/
theorem creditsOf_nonneg (adminIds : List Nat) (db : Db) (op : Op)
    (hn : tasksNonneg db) : ∀ p ∈ creditsOf adminIds db op, 0 ≤ p.2 := by
  intro p hp
  cases op with
  | start uid un ref =>
    simp only [creditsOf] at hp
    rcases List.mem_append.mp hp with h | h
    · rcases hu : db.users uid with _ | ru
      · simp [hu] at h
        subst h
        simp
      · simp [hu] at h
    · rcases ref with _ | r
      · simp at h
      · simp at h
        obtain ⟨-, h2⟩ := h
        subst h2
        simp
  | adWatch m uid un now =>
    cases m with
    | false => simp [creditsOf] at hp
    | true =>
      simp [creditsOf] at hp
      subst hp
      simp
  | daily uid un t =>
    simp only [creditsOf] at hp
    by_cases hld : lastDailyOf db uid = some t
    · simp [hld] at hp
    · simp [hld] at hp
      subst hp
      simp
  | submit m v uid un tid fn c now => simp [creditsOf] at hp
  | review uid sid a r =>
    simp only [creditsOf] at hp
    by_cases hadm : uid ∈ adminIds
    · rcases hsub : db.subs sid with _ | row
      · simp [hadm, hsub] at hp
      · simp [hadm, hsub] at hp
        obtain ⟨-, h2⟩ := hp
        subst h2
        show (0 : Int) ≤ rewardOf db row.task_id
        unfold rewardOf
        rcases htk : db.tasks row.task_id with _ | tk
        · exact le_refl 0
        · exact hn _ tk htk
    · simp [hadm] at hp
  | addTask uid t d l rew => simp [creditsOf] at hp
  | editTask uid tid t d l rew => simp [creditsOf] at hp
  | delTask uid tid => simp [creditsOf] at hp


theorem balanceOf_applyOps (adminIds : List Nat) (ops : List Op) :
    ∀ db q, balanceOf (applyOps adminIds db ops) q
      = balanceOf db q + sumFor q (traceCredits adminIds db ops) := by
  induction ops with
  | nil =>
    intro db q
    simp [applyOps, traceCredits, sumFor_nil]
  | cons op ops ih =>
    intro db q
    have h1 : applyOps adminIds db (op :: ops)
        = applyOps adminIds (applyOp adminIds db op) ops := rfl
    have h2 : traceCredits adminIds db (op :: ops)
        = creditsOf adminIds db op
          ++ traceCredits adminIds (applyOp adminIds db op) ops := rfl
    rw [h1, ih, balanceOf_applyOp, h2, sumFor_append]
    ring

theorem tasksNonneg_applyOps (adminIds : List Nat) (ops : List Op) :
    ∀ db, tasksNonneg db → (∀ op ∈ ops, opRewardsNonneg op) →
    tasksNonneg (applyOps adminIds db ops) := by
  induction ops with
  | nil =>
    intro db hn _
    exact hn
  | cons op ops ih =>
    intro db hn hops
    exact ih _
      (tasksNonneg_applyOp adminIds db op hn (hops op (by simp)))
      (fun o ho => hops o (by simp [ho]))

theorem traceCredits_nonneg (adminIds : List Nat) (ops : List Op) :
    ∀ db, tasksNonneg db → (∀ op ∈ ops, opRewardsNonneg op) →
    ∀ p ∈ traceCredits adminIds db ops, 0 ≤ p.2 := by
  induction ops with
  | nil =>
    intro db _ _ p hp
    simp [traceCredits] at hp
  | cons op ops ih =>
    intro db hn hops p hp
    have h2 : traceCredits adminIds db (op :: ops)
        = creditsOf adminIds db op
          ++ traceCredits adminIds (applyOp adminIds db op) ops := rfl
    rw [h2] at hp
    rcases List.mem_append.mp hp with h | h
    · exact creditsOf_nonneg adminIds db op hn p h
    · exact ih _
        (tasksNonneg_applyOp adminIds db op hn (hops op (by simp)))
        (fun o ho => hops o (by simp [ho])) p h

/-- C8 counterexample: the code never validates reward signs, so the
trace "admin 9 adds a task with reward -200; member 5 submits a valid
proof for it; admin 9 approves" leaves user 5's balance at -200 — an
operation debited a balance and drove it negative, refuting the claim as
stated over all operation sequences. -/
theorem negative_reward_trace :
    balanceOf (applyOps [9] db0
      [Op.addTask 9 "t" "" "" (-200),
       Op.submit true true 5 "u" 1 "a.jpg" [1] 0,
       Op.review 9 1 "approve" ""]) 5 = -200
    ∧ balanceOf (applyOps [9] db0
      [Op.addTask 9 "t" "" "" (-200),
       Op.submit true true 5 "u" 1 "a.jpg" [1] 0,
       Op.review 9 1 "approve" ""]) 5 < 0 := by
  refine ⟨rfl, by decide⟩

/-- C8 (amended): over every sequence of operations (account creation,
ad views, daily claims, referrals, proof submission, review, task
add/edit/delete) in which every reward supplied to task creation and
editing is non-negative, each account's balance equals the sum of the
credit events applied to it and is never negative; the code itself does
not enforce the sign of task rewards, and a negative reward turns
approval into a debit. -/
theorem balance_is_credit_sum (adminIds : List Nat) (ops : List Op)
    (h : ∀ op ∈ ops, opRewardsNonneg op) (q : Nat) :
    balanceOf (applyOps adminIds db0 ops) q
      = sumFor q (traceCredits adminIds db0 ops)
    ∧ 0 ≤ balanceOf (applyOps adminIds db0 ops) q := by
  have htn : tasksNonneg db0 := by
    intro tid t ht
    simp [db0] at ht
  have h1 := balanceOf_applyOps adminIds ops db0 q
  have h0 : balanceOf db0 q = 0 := rfl
  rw [h0, zero_add] at h1
  refine ⟨h1, ?_⟩
  rw [h1]
  exact sumFor_nonneg q _ (traceCredits_nonneg adminIds ops db0 htn h)

/-- Witness for C8: a signup, an ad view and a daily claim for user 5
(with a task of reward 30 also present): the balance is the sum of the
credit events, 250. -/
theorem balance_is_credit_sum_witness :
    balanceOf (applyOps [9] db0
      [Op.addTask 9 "t" "" "" 30, Op.start 5 "u" none,
       Op.adWatch true 5 "u" 0, Op.daily 5 "u" "2026-10-12"]) 5
      = sumFor 5 (traceCredits [9] db0
      [Op.addTask 9 "t" "" "" 30, Op.start 5 "u" none,
       Op.adWatch true 5 "u" 0, Op.daily 5 "u" "2026-10-12"])
    ∧ 0 ≤ balanceOf (applyOps [9] db0
      [Op.addTask 9 "t" "" "" 30, Op.start 5 "u" none,
       Op.adWatch true 5 "u" 0, Op.daily 5 "u" "2026-10-12"]) 5
    ∧ balanceOf (applyOps [9] db0
      [Op.addTask 9 "t" "" "" 30, Op.start 5 "u" none,
       Op.adWatch true 5 "u" 0, Op.daily 5 "u" "2026-10-12"]) 5 = 250 := by
  have h := balance_is_credit_sum [9]
    [Op.addTask 9 "t" "" "" 30, Op.start 5 "u" none,
     Op.adWatch true 5 "u" 0, Op.daily 5 "u" "2026-10-12"]
    (by
      intro op hop
      simp only [List.mem_cons, List.not_mem_nil, or_false] at hop
      rcases hop with rfl | rfl | rfl | rfl <;> simp [opRewardsNonneg])
    5
  exact ⟨h.1, h.2, rfl⟩

end MiniBot
